import Mathlib

/-!
Shallow embedding of the casbin Firestore adapter (adapter.go, model.go).

The Firestore collection is modelled as a `List CasbinRule`; a Firestore
query is modelled as a `Bool` predicate on records; `RunTransaction` is
modelled as a state transformer that commits the new state only when the
body succeeds, and leaves the state untouched when the body fails.
Failures of individual transaction operations (`tx.Delete`, `tx.Create`)
are injected through an oracle `fail : Nat → Bool` indexed by the
operation count.
-/

namespace CasbinFirestore

/-- Flat record stored in the collection (`struct CasbinRule`, adapter.go):
a policy-type tag plus six field slots `v0..v5`, each independently
present-or-empty. -/
structure CasbinRule where
  PType : String
  V0 : String
  V1 : String
  V2 : String
  V3 : String
  V4 : String
  V5 : String
deriving DecidableEq

/-- Base query `Where("p_type", ">", "")` (`newQuery`, adapter.go line 56).
In the lexicographic string order, being strictly greater than `""` is the
same as being non-empty; the equivalence with the order itself is proved in
`matchBase_iff_blank_lt` below. -/
def matchBase (r : CasbinRule) : Bool := r.PType != ("")

/-- Encoding of a rule into a flat record (`savePolicyLine`, adapter.go
lines 234-259): `rule[i]` goes to slot `i` when present, unused slots stay
empty. -/
def savePolicyLine (ptype : String) (rule : List String) : CasbinRule :=
  { PType := ptype
    V0 := rule.getD 0 ("")
    V1 := rule.getD 1 ("")
    V2 := rule.getD 2 ("")
    V3 := rule.getD 3 ("")
    V4 := rule.getD 4 ("")
    V5 := rule.getD 5 ("") }

/-- Section of a record: first character of the policy type
(`sec := key[:1]` in `loadPolicyLine`, adapter.go line 263). -/
def lineSec (line : CasbinRule) : String := line.PType.take 1

/-- Token list decoded from a record (`loadPolicyLine`, adapter.go lines
265-300): fields are appended in order while non-empty; the `goto LineEnd`
chain stops at the first empty field. -/
def lineTokens (line : CasbinRule) : List String :=
  if line.V0 != ("") then
    if line.V1 != ("") then
      if line.V2 != ("") then
        if line.V3 != ("") then
          if line.V4 != ("") then
            if line.V5 != ("") then
              [line.V0, line.V1, line.V2, line.V3, line.V4, line.V5]
            else [line.V0, line.V1, line.V2, line.V3, line.V4]
          else [line.V0, line.V1, line.V2, line.V3]
        else [line.V0, line.V1, line.V2]
      else [line.V0, line.V1]
    else [line.V0]
  else []

/-- The in-memory model, viewed as the map
`section → policy type → list of rules` that `loadPolicyLine` appends
into (`model[sec][key].Policy`). -/
abbrev ModelFn := String → String → List (List String)

/-- Decoding one record into the model (`loadPolicyLine`, adapter.go line
303): append the decoded token list under `model[sec][key]`. -/
def loadPolicyLine (line : CasbinRule) (m : ModelFn) : ModelFn :=
  fun sec key =>
    if sec = lineSec line ∧ key = line.PType then m sec key ++ [lineTokens line]
    else m sec key

/-- First pass of `LoadPolicy` (adapter.go lines 66-79): read every
document of the query into a local buffer, stopping at the first iterator
or decode error. Each incoming document is either a decoded record or an
error. -/
def collectRules : List (Except String CasbinRule) → Except String (List CasbinRule)
  | [] => .ok []
  | .error e :: _ => .error e
  | .ok r :: rest => (collectRules rest).map (fun rs => r :: rs)

/-- `LoadPolicy` (adapter.go lines 60-85): buffer all documents first; only
when every document decoded successfully are the rules appended to the
model, in order. On error the model argument is returned untouched. -/
def loadPolicy (docs : List (Except String CasbinRule)) (m : ModelFn) :
    Except String Unit × ModelFn :=
  match collectRules docs with
  | .error e => (.error e, m)
  | .ok rules => (.ok (), rules.foldl (fun acc r => loadPolicyLine r acc) m)

/-- The documents delivered by the adapter's base query over a stored
collection: exactly the records with non-empty policy type. -/
def queryDocs (store : List CasbinRule) : List CasbinRule := store.filter matchBase

/-- The two sections of the in-memory model that `SavePolicy` reads
(`model["p"]` and `model["g"]`), each an association list from policy type
to its rule list. -/
structure Model where
  p : List (String × List (List String))
  g : List (String × List (List String))

/-- The record list built by `SavePolicy` (adapter.go lines 88-102): one
encoded record per rule of every policy type of the `p` and `g`
sections. -/
def policyLines (m : Model) : List CasbinRule :=
  (m.p.flatMap (fun a => a.2.map (savePolicyLine a.1))) ++
    (m.g.flatMap (fun a => a.2.map (savePolicyLine a.1)))

/-- The rules stored in the model under a given section and policy type. -/
def modelRules (m : Model) (sec ptype : String) : List (List String) :=
  ((if sec = ("p") then m.p else if sec = ("g") then m.g else []).filter
      (fun a => a.1 == ptype)).flatMap (fun a => a.2)

/-- A model map with no rules anywhere. -/
def emptyModelFn : ModelFn := fun _ _ => []

/-- `client.RunTransaction`: the new state is visible only when the body
succeeds; on failure the state is unchanged (all-or-nothing, delegated to
Firestore). -/
def runTransaction {σ : Type} (body : σ → Except String σ) (s : σ) :
    Except String Unit × σ :=
  match body s with
  | .ok s2 => (.ok (), s2)
  | .error e => (.error e, s)

/-- The delete loop shared by `SavePolicy`, `RemovePolicy` and
`RemoveFilteredPolicy` (iterate the matched documents, `tx.Delete` each):
`fail i` injects a failure of the `i`-th transaction operation. -/
def txDeleteAll (fail : Nat → Bool) (i : Nat) (docs store : List CasbinRule) :
    Except String (Nat × List CasbinRule) :=
  match docs with
  | [] => .ok (i, store)
  | d :: rest =>
    if fail i then .error ("delete failed")
    else txDeleteAll fail (i + 1) rest (store.erase d)

/-- The create loop of `SavePolicy` (adapter.go lines 121-125): `tx.Create`
one document per built line. -/
def txCreateAll (fail : Nat → Bool) (i : Nat) (lines store : List CasbinRule) :
    Except String (List CasbinRule) :=
  match lines with
  | [] => .ok store
  | l :: rest =>
    if fail i then .error ("create failed")
    else txCreateAll fail (i + 1) rest (store ++ [l])

/-- `SavePolicy` (adapter.go lines 87-131): inside one transaction, delete
every document matched by the base query, then create one document per
built line. -/
def savePolicy (fail : Nat → Bool) (m : Model) (store : List CasbinRule) :
    Except String Unit × List CasbinRule :=
  runTransaction (fun s =>
    match txDeleteAll fail 0 (s.filter matchBase) s with
    | .error e => .error e
    | .ok (i, s2) => txCreateAll fail i (policyLines m) s2) store

/-- The successful-commit result of `savePolicy`: records with empty
policy type survive (the base query does not match them), everything else
is replaced by the built lines. -/
def savePolicyStore (m : Model) (store : List CasbinRule) : List CasbinRule :=
  store.filter (fun r => !(matchBase r)) ++ policyLines m

/-- `AddPolicy` (adapter.go lines 133-141): create exactly one encoded
record inside a transaction. -/
def addPolicy (sec ptype : String) (rule : List String) (store : List CasbinRule) :
    Except String Unit × List CasbinRule :=
  runTransaction (fun s => .ok (s ++ [savePolicyLine ptype rule])) store

/-- The match predicate of `RemovePolicy`'s query (adapter.go lines
147-153): the base query plus equality on `p_type` and on `v0..v4`
(`v5` is not constrained). -/
def removeMatch (line r : CasbinRule) : Bool :=
  matchBase r && (r.PType == line.PType) && (r.V0 == line.V0) && (r.V1 == line.V1) &&
    (r.V2 == line.V2) && (r.V3 == line.V3) && (r.V4 == line.V4)

/-- `RemovePolicy` (adapter.go lines 143-171): encode the rule, delete
every matching document inside one transaction. -/
def removePolicy (sec ptype : String) (rule : List String) (store : List CasbinRule) :
    Except String Unit × List CasbinRule :=
  runTransaction (fun s =>
    match txDeleteAll (fun _ => false) 0
        (s.filter (removeMatch (savePolicyLine ptype rule))) s with
    | .error e => .error e
    | .ok res => .ok res.2) store

/-- Field names `v0..v5` used by the filter planner. -/
def vName : Nat → String
  | 0 => ("v0")
  | 1 => ("v1")
  | 2 => ("v2")
  | 3 => ("v3")
  | 4 => ("v4")
  | 5 => ("v5")
  | _ => ("")

/-- One guarded block of `RemoveFilteredPolicy`'s selector construction
(adapter.go lines 180-209) at absolute field position `k`: when `k` lies
in the window `[fieldIndex, fieldIndex + len(fieldValues))` and the
supplied value is non-empty, emit the equality constraint. -/
def rfpAt (fieldIndex : Int) (fieldValues : List String) (k : Int) :
    List (String × String) :=
  if fieldIndex ≤ k ∧ k < fieldIndex + fieldValues.length then
    if fieldValues.getD (k - fieldIndex).toNat ("") != ("") then
      [(vName k.toNat, fieldValues.getD (k - fieldIndex).toNat (""))]
    else []
  else []

/-- The full selector of `RemoveFilteredPolicy` (adapter.go lines 177-209):
the mandatory `p_type == ptype` entry plus the six field blocks. -/
def rfpSelector (ptype : String) (fieldIndex : Int) (fieldValues : List String) :
    List (String × String) :=
  (("p_type"), ptype) ::
    (rfpAt fieldIndex fieldValues 0 ++ rfpAt fieldIndex fieldValues 1 ++
      rfpAt fieldIndex fieldValues 2 ++ rfpAt fieldIndex fieldValues 3 ++
      rfpAt fieldIndex fieldValues 4 ++ rfpAt fieldIndex fieldValues 5)

/-- Value of a record at a selector field name. -/
def fieldOf (r : CasbinRule) : String → String
  | "p_type" => r.PType
  | "v0" => r.V0
  | "v1" => r.V1
  | "v2" => r.V2
  | "v3" => r.V3
  | "v4" => r.V4
  | "v5" => r.V5
  | _ => ("")

/-- The match predicate of `RemoveFilteredPolicy`'s query: the base query
plus every selector equality constraint. -/
def rfpMatch (ptype : String) (fieldIndex : Int) (fieldValues : List String)
    (r : CasbinRule) : Bool :=
  matchBase r &&
    (rfpSelector ptype fieldIndex fieldValues).all (fun c => fieldOf r c.1 == c.2)

/-- `RemoveFilteredPolicy` (adapter.go lines 173-232): build the selector,
delete every matching document inside one transaction. -/
def removeFilteredPolicy (sec ptype : String) (fieldIndex : Int)
    (fieldValues : List String) (store : List CasbinRule) :
    Except String Unit × List CasbinRule :=
  runTransaction (fun s =>
    match txDeleteAll (fun _ => false) 0
        (s.filter (rfpMatch ptype fieldIndex fieldValues)) s with
    | .error e => .error e
    | .ok res => .ok res.2) store

/-- `SaveModelWithConfig` (model.go lines 21-40): read the file, validate
the text with the model parser, and only then store it under the fixed
`conf` key inside a transaction. The parser (the external
`model.NewModelFromString`) is an explicit parameter returning `some`
error exactly when the text is rejected. The stored state is the optional
`conf` document. -/
def saveModelWithConfig (validate : String → Option String)
    (fileContent : Except String String) (conf : Option String) :
    Except String Unit × Option String :=
  match fileContent with
  | .error e => (.error e, conf)
  | .ok text =>
    match validate text with
    | some e => (.error e, conf)
    | none => runTransaction (fun _ => .ok (some text)) conf

/-! Helper lemmas shared by the claim theorems. -/

/-- In the lexicographic order on strings, `"" < s` holds exactly for
non-empty `s`. -/
lemma blank_lt_iff (s : String) : (("") : String) < s ↔ s ≠ ("") := by
  cases s with
  | mk data =>
    cases data with
    | nil => simp [String.lt_iff_toList_lt]
    | cons c cs =>
      simp only [String.lt_iff_toList_lt, String.toList]
      simp [List.nil_lt_cons]
      intro h
      exact absurd (congrArg String.data h) (by simp)

/-- The base query predicate agrees with the Firestore condition
`p_type > ""`. -/
lemma matchBase_iff_blank_lt (r : CasbinRule) :
    matchBase r = true ↔ (("") : String) < r.PType := by
  rw [matchBase, bne_iff_ne]
  exact (blank_lt_iff r.PType).symm

/-- Round-trip of the record codec: decoding the token list of an encoded
rule of at most six non-empty fields gives back the rule. -/
lemma lineTokens_savePolicyLine (ptype : String) (rule : List String)
    (hlen : rule.length ≤ 6) (hne : ∀ f ∈ rule, f ≠ ("")) :
    lineTokens (savePolicyLine ptype rule) = rule := by
  rcases rule with _ | ⟨a, _ | ⟨b, _ | ⟨c, _ | ⟨d, _ | ⟨e, _ | ⟨f, _ | ⟨g, rest⟩⟩⟩⟩⟩⟩⟩
  · rfl
  · have ha : a ≠ ("") := hne a (by simp)
    simp [savePolicyLine, lineTokens, ha]
  · have ha : a ≠ ("") := hne a (by simp)
    have hb : b ≠ ("") := hne b (by simp)
    simp [savePolicyLine, lineTokens, ha, hb]
  · have ha : a ≠ ("") := hne a (by simp)
    have hb : b ≠ ("") := hne b (by simp)
    have hc : c ≠ ("") := hne c (by simp)
    simp [savePolicyLine, lineTokens, ha, hb, hc]
  · have ha : a ≠ ("") := hne a (by simp)
    have hb : b ≠ ("") := hne b (by simp)
    have hc : c ≠ ("") := hne c (by simp)
    have hd : d ≠ ("") := hne d (by simp)
    simp [savePolicyLine, lineTokens, ha, hb, hc, hd]
  · have ha : a ≠ ("") := hne a (by simp)
    have hb : b ≠ ("") := hne b (by simp)
    have hc : c ≠ ("") := hne c (by simp)
    have hd : d ≠ ("") := hne d (by simp)
    have he : e ≠ ("") := hne e (by simp)
    simp [savePolicyLine, lineTokens, ha, hb, hc, hd, he]
  · have ha : a ≠ ("") := hne a (by simp)
    have hb : b ≠ ("") := hne b (by simp)
    have hc : c ≠ ("") := hne c (by simp)
    have hd : d ≠ ("") := hne d (by simp)
    have he : e ≠ ("") := hne e (by simp)
    have hf : f ≠ ("") := hne f (by simp)
    simp [savePolicyLine, lineTokens, ha, hb, hc, hd, he, hf]
  · simp at hlen

/-- A successful run of the delete loop erases exactly the listed
documents from the store. -/
lemma txDeleteAll_ok (fail : Nat → Bool) (docs : List CasbinRule) :
    ∀ (store : List CasbinRule) (i j : Nat) (store2 : List CasbinRule),
      txDeleteAll fail i docs store = .ok (j, store2) →
      store2 = docs.foldl List.erase store := by
  induction docs with
  | nil =>
    intro store i j store2 h
    simp only [txDeleteAll, Except.ok.injEq, Prod.mk.injEq] at h
    simp [h.2]
  | cons d rest ih =>
    intro store i j store2 h
    simp only [txDeleteAll] at h
    split at h
    · exact absurd h (by simp)
    · rw [List.foldl_cons]
      exact ih _ _ _ _ h

/-- Erasing, from a store, every element of one of its filters leaves
exactly the complementary filter. -/
lemma foldl_erase_cons_of_ne (x : CasbinRule) (ds : List CasbinRule)
    (hx : ∀ d ∈ ds, x ≠ d) :
    ∀ t : List CasbinRule, ds.foldl List.erase (x :: t) = x :: ds.foldl List.erase t := by
  induction ds with
  | nil => intro t; rfl
  | cons d rest ih =>
    intro t
    have hxd : x ≠ d := hx d (by simp)
    simp only [List.foldl_cons]
    rw [List.erase_cons_tail (by simp [hxd])]
    exact ih (fun d' hd' => hx d' (by simp [hd'])) _

/-- Fold of `List.erase` over the positive filter of a store computes the
negative filter. -/
lemma foldl_erase_filter (p : CasbinRule → Bool) (store : List CasbinRule) :
    (store.filter p).foldl List.erase store = store.filter (fun r => !(p r)) := by
  induction store with
  | nil => rfl
  | cons x t ih =>
    by_cases hp : p x = true
    · rw [List.filter_cons_of_pos hp, List.foldl_cons, List.erase_cons_head,
        List.filter_cons_of_neg (by simp [hp])]
      exact ih
    · rw [List.filter_cons_of_neg hp,
        foldl_erase_cons_of_ne x _ (fun d hd => ?_) t, ih,
        List.filter_cons_of_pos (by simp [hp])]
      intro hxd
      rw [List.mem_filter] at hd
      rw [hxd] at hp
      exact hp hd.2

/-- A successful run of the create loop appends exactly the listed lines. -/
lemma txCreateAll_ok (fail : Nat → Bool) (lines : List CasbinRule) :
    ∀ (store store2 : List CasbinRule) (i : Nat),
      txCreateAll fail i lines store = .ok store2 → store2 = store ++ lines := by
  induction lines with
  | nil =>
    intro store store2 i h
    simp only [txCreateAll, Except.ok.injEq] at h
    simp [h]
  | cons l rest ih =>
    intro store store2 i h
    simp only [txCreateAll] at h
    split at h
    · exact absurd h (by simp)
    · have h2 := ih _ _ _ h
      simp only [h2, List.append_assoc, List.singleton_append]

/-- Full characterization of `savePolicy`: commit replaces the matched
records by the built lines; abort leaves the store untouched. -/
lemma savePolicy_spec (fail : Nat → Bool) (m : Model) (store : List CasbinRule) :
    ((savePolicy fail m store).1 = .ok () →
      (savePolicy fail m store).2 = savePolicyStore m store) ∧
    (∀ e, (savePolicy fail m store).1 = .error e →
      (savePolicy fail m store).2 = store) := by
  unfold savePolicy runTransaction
  cases h1 : txDeleteAll fail 0 (store.filter matchBase) store with
  | error e => simp [h1]
  | ok res =>
    obtain ⟨i, s2⟩ := res
    have hs2 : s2 = store.filter (fun r => !(matchBase r)) := by
      rw [txDeleteAll_ok fail _ _ _ _ _ h1, foldl_erase_filter]
    subst hs2
    cases h2 : txCreateAll fail i (policyLines m)
        (store.filter (fun r => !(matchBase r))) with
    | error e => simp [h1, h2]
    | ok s3 =>
      have h3 := txCreateAll_ok fail _ _ _ _ h2
      simp [h1, h2, h3, savePolicyStore]

/-- A run of `savePolicy` without injected failures commits. -/
lemma savePolicy_noFail (m : Model) (store : List CasbinRule) :
    savePolicy (fun _ => false) m store = (.ok (), savePolicyStore m store) := by
  have h1 : ∀ (docs s : List CasbinRule) (i : Nat),
      ∃ j s2, txDeleteAll (fun _ => false) i docs s = .ok (j, s2) := by
    intro docs
    induction docs with
    | nil => intro s i; exact ⟨i, s, rfl⟩
    | cons d rest ih =>
      intro s i
      simpa [txDeleteAll] using ih (s.erase d) (i + 1)
  have h2 : ∀ (lines s : List CasbinRule) (i : Nat),
      ∃ s2, txCreateAll (fun _ => false) i lines s = .ok s2 := by
    intro lines
    induction lines with
    | nil => intro s i; exact ⟨s, rfl⟩
    | cons l rest ih =>
      intro s i
      simpa [txCreateAll] using ih (s ++ [l]) (i + 1)
  obtain ⟨j, s2, hdel⟩ := h1 (store.filter matchBase) store 0
  obtain ⟨s3, hcre⟩ := h2 (policyLines m) s2 j
  have hspec := savePolicy_spec (fun _ => false) m store
  have hfst : (savePolicy (fun _ => false) m store).1 = .ok () := by
    unfold savePolicy runTransaction
    simp [hdel, hcre]
  have hsnd := hspec.1 hfst
  rw [Prod.ext_iff]
  exact ⟨hfst, hsnd⟩

/-- Collecting a stream of successfully decoded documents yields them
all, in order. -/
lemma collectRules_map_ok (docs : List CasbinRule) :
    collectRules (docs.map Except.ok) = .ok docs := by
  induction docs with
  | nil => rfl
  | cons d rest ih =>
    simp only [List.map_cons, collectRules, ih]
    rfl

/-- Folding `loadPolicyLine` over a rule list appends, under every
`(section, key)` slot, the token lists of exactly the records that decode
to that slot, in order. -/
lemma foldl_loadPolicyLine (rules : List CasbinRule) :
    ∀ (m : ModelFn) (sec key : String),
      (rules.foldl (fun acc r => loadPolicyLine r acc) m) sec key =
        m sec key ++
          (rules.filter
            (fun r => decide (sec = lineSec r ∧ key = r.PType))).map lineTokens := by
  induction rules with
  | nil => intro m sec key; simp
  | cons r rest ih =>
    intro m sec key
    rw [List.foldl_cons, ih]
    by_cases h : sec = lineSec r ∧ key = r.PType
    · simp [loadPolicyLine, h, List.filter_cons]
    · simp [loadPolicyLine, h, List.filter_cons]

/-- Without injected failures the delete loop always succeeds and folds
`List.erase` over the listed documents. -/
lemma txDeleteAll_noFail (docs : List CasbinRule) :
    ∀ (s : List CasbinRule) (i : Nat), ∃ j : Nat,
      txDeleteAll (fun _ => false) i docs s = .ok (j, docs.foldl List.erase s) := by
  induction docs with
  | nil => intro s i; exact ⟨i, rfl⟩
  | cons d rest ih =>
    intro s i
    obtain ⟨j, hj⟩ := ih (s.erase d) (i + 1)
    exact ⟨j, by simpa [txDeleteAll] using hj⟩

/-- `RemovePolicy` always commits and filters out exactly the records
matched by its query. -/
lemma removePolicy_eq (sec ptype : String) (rule : List String)
    (store : List CasbinRule) :
    removePolicy sec ptype rule store =
      (.ok (),
        store.filter (fun r => !(removeMatch (savePolicyLine ptype rule) r))) := by
  unfold removePolicy runTransaction
  obtain ⟨j, hdel⟩ :=
    txDeleteAll_noFail
      (store.filter (removeMatch (savePolicyLine ptype rule))) store 0
  rw [foldl_erase_filter] at hdel
  simp [hdel]

/-- `RemoveFilteredPolicy` always commits and filters out exactly the
records matched by its query. -/
lemma removeFilteredPolicy_eq (sec ptype : String) (fieldIndex : Int)
    (fieldValues : List String) (store : List CasbinRule) :
    removeFilteredPolicy sec ptype fieldIndex fieldValues store =
      (.ok (),
        store.filter (fun r => !(rfpMatch ptype fieldIndex fieldValues r))) := by
  unfold removeFilteredPolicy runTransaction
  obtain ⟨j, hdel⟩ :=
    txDeleteAll_noFail
      (store.filter (rfpMatch ptype fieldIndex fieldValues)) store 0
  rw [foldl_erase_filter] at hdel
  simp [hdel]

/-- Membership in one selector block of the filter planner. -/
lemma mem_rfpAt (fieldIndex : Int) (fieldValues : List String) (k : Int)
    (e : String × String) :
    e ∈ rfpAt fieldIndex fieldValues k ↔
      fieldIndex ≤ k ∧ k < fieldIndex + fieldValues.length ∧
      fieldValues.getD (k - fieldIndex).toNat ("") ≠ ("") ∧
      e = (vName k.toNat, fieldValues.getD (k - fieldIndex).toNat ("")) := by
  by_cases hw : fieldIndex ≤ k ∧ k < fieldIndex + (fieldValues.length : Int)
  · by_cases hv : fieldValues.getD (k - fieldIndex).toNat ("") = ("")
    · simp [rfpAt, hw, hv]
    · simp [rfpAt, hw, hv]
  · rw [rfpAt, if_neg hw]
    simp only [List.not_mem_nil, false_iff]
    intro hc
    exact hw ⟨hc.1, hc.2.1⟩

/-! Claim theorems. -/

/-- C2: decoding a flat record yields the longest non-empty prefix of
`field0..field5` (scanning stops at the first empty field), a record with
empty `field0` decodes to the zero-length rule, and the decoded rule is
appended to the model under the record's section (first character of the
type) and type. -/
theorem c2_decode_longest_nonempty_prefix (line : CasbinRule) (m : ModelFn) :
    lineTokens line =
      [line.V0, line.V1, line.V2, line.V3, line.V4, line.V5].takeWhile
        (fun f => f != ("")) ∧
    (line.V0 = ("") → lineTokens line = []) ∧
    loadPolicyLine line m (lineSec line) line.PType =
      m (lineSec line) line.PType ++ [lineTokens line] := by
  refine ⟨?_, ?_, ?_⟩
  · by_cases h0 : line.V0 = ("") <;> by_cases h1 : line.V1 = ("") <;>
      by_cases h2 : line.V2 = ("") <;> by_cases h3 : line.V3 = ("") <;>
      by_cases h4 : line.V4 = ("") <;> by_cases h5 : line.V5 = ("") <;>
      simp [lineTokens, List.takeWhile_cons, h0, h1, h2, h3, h4, h5]
  · intro h0
    simp [lineTokens, h0]
  · simp [loadPolicyLine]

/-- C2 witness: a record whose `field0` is empty but `field1` is not
decodes to the zero-length rule, which is appended under its section and
type. -/
theorem c2_witness :
    lineTokens (CasbinRule.mk ("p") ("") ("x") ("") ("") ("") ("")) =
      [(""), ("x"), (""), (""), (""), ("")].takeWhile (fun f => f != ("")) ∧
    ((CasbinRule.mk ("p") ("") ("x") ("") ("") ("") ("")).V0 = ("") →
      lineTokens (CasbinRule.mk ("p") ("") ("x") ("") ("") ("") ("")) = []) ∧
    loadPolicyLine (CasbinRule.mk ("p") ("") ("x") ("") ("") ("") ("")) emptyModelFn
        (lineSec (CasbinRule.mk ("p") ("") ("x") ("") ("") ("") ("")))
        (CasbinRule.mk ("p") ("") ("x") ("") ("") ("") ("")).PType =
      emptyModelFn (lineSec (CasbinRule.mk ("p") ("") ("x") ("") ("") ("") ("")))
          (CasbinRule.mk ("p") ("") ("x") ("") ("") ("") ("")).PType ++
        [lineTokens (CasbinRule.mk ("p") ("") ("x") ("") ("") ("") (""))] :=
  c2_decode_longest_nonempty_prefix
    (CasbinRule.mk ("p") ("") ("x") ("") ("") ("") ("")) emptyModelFn

/-- C3: for every non-empty policy type and every rule of at most six
non-empty fields, decoding the encoded record yields the section derived
from the type's first character, the same type, and exactly the original
field list. -/
theorem c3_encode_decode_roundtrip (ptype : String) (rule : List String)
    (hpt : ptype ≠ ("")) (hlen : rule.length ≤ 6)
    (hne : ∀ f ∈ rule, f ≠ ("")) :
    lineSec (savePolicyLine ptype rule) = ptype.take 1 ∧
    (lineSec (savePolicyLine ptype rule)).length = 1 ∧
    (savePolicyLine ptype rule).PType = ptype ∧
    lineTokens (savePolicyLine ptype rule) = rule := by
  refine ⟨rfl, ?_, rfl, lineTokens_savePolicyLine ptype rule hlen hne⟩
  show (ptype.take 1).length = 1
  rcases ptype with ⟨data⟩
  cases data with
  | nil => exact absurd (by decide) hpt
  | cons c cs =>
    rw [String.take_eq]
    show ((c :: cs).take 1).length = 1
    simp

/-- C3 witness: round-trip at a concrete three-field rule. -/
theorem c3_witness :
    lineSec (savePolicyLine ("p") [("alice"), ("data1"), ("read")]) = ("p").take 1 ∧
    (lineSec (savePolicyLine ("p") [("alice"), ("data1"), ("read")])).length = 1 ∧
    (savePolicyLine ("p") [("alice"), ("data1"), ("read")]).PType = ("p") ∧
    lineTokens (savePolicyLine ("p") [("alice"), ("data1"), ("read")]) =
      [("alice"), ("data1"), ("read")] :=
  c3_encode_decode_roundtrip ("p") [("alice"), ("data1"), ("read")]
    (by decide) (by decide) (by decide)

/-- C8: when the model-definition text does not validate, the save
returns the validation error and the stored definition — whatever was
there before — is untouched; no write is attempted. -/
theorem c8_save_model_validates_before_write (validate : String → Option String)
    (text : String) (conf : Option String) (e : String)
    (h : validate text = some e) :
    saveModelWithConfig validate (.ok text) conf = (.error e, conf) := by
  simp [saveModelWithConfig, h]

/-- C8 witness: a concrete rejected text leaves a previously saved
definition in place. -/
theorem c8_witness :
    saveModelWithConfig
        (fun t => if t = ("bad") then some ("invalid model") else none)
        (.ok ("bad")) (some ("old model text")) =
      (.error ("invalid model"), some ("old model text")) :=
  c8_save_model_validates_before_write
    (fun t => if t = ("bad") then some ("invalid model") else none)
    ("bad") (some ("old model text")) ("invalid model") (by decide)

/-- C10: when `LoadPolicy` fails — in the iteration or while decoding a
document — the caller's model is completely unchanged: documents are
buffered first and appended only after every one decoded. -/
theorem c10_load_error_leaves_model_unchanged
    (docs : List (Except String CasbinRule)) (m : ModelFn) (e : String)
    (h : (loadPolicy docs m).1 = .error e) :
    (loadPolicy docs m).2 = m := by
  unfold loadPolicy at h ⊢
  cases hc : collectRules docs with
  | error e2 => simp [hc]
  | ok rules => simp [hc] at h

/-- C10 witness: one good document followed by a failing one leaves the
model untouched. -/
theorem c10_witness :
    (loadPolicy
        [.ok (CasbinRule.mk ("p") ("a") ("") ("") ("") ("") ("")),
         .error ("decode failed")] emptyModelFn).2 = emptyModelFn :=
  c10_load_error_leaves_model_unchanged
    [.ok (CasbinRule.mk ("p") ("a") ("") ("") ("") ("") ("")),
     .error ("decode failed")] emptyModelFn ("decode failed") rfl

/-- C1: the delete query of `RemoveFilteredPolicy` carries exactly the
mandatory `p_type == ptype` equality constraint plus, for each absolute
field position `k` in `0..5` inside the window
`[fieldIndex, fieldIndex + len(fieldValues))` whose supplied value
`fieldValues[k - fieldIndex]` is non-empty, the constraint
`vk == fieldValues[k - fieldIndex]`; positions outside the window or with
an empty supplied value contribute nothing. -/
theorem c1_rfp_selector_exact (ptype : String) (fieldIndex : Int)
    (fieldValues : List String) (e : String × String) :
    e ∈ rfpSelector ptype fieldIndex fieldValues ↔
      e = (("p_type"), ptype) ∨
      ∃ k : Int, 0 ≤ k ∧ k ≤ 5 ∧ fieldIndex ≤ k ∧
        k < fieldIndex + fieldValues.length ∧
        fieldValues.getD (k - fieldIndex).toNat ("") ≠ ("") ∧
        e = (vName k.toNat, fieldValues.getD (k - fieldIndex).toNat ("")) := by
  unfold rfpSelector
  simp only [List.append_assoc, List.mem_cons, List.mem_append, mem_rfpAt]
  constructor
  · rintro (rfl | h | h | h | h | h | h)
    · exact Or.inl rfl
    · exact Or.inr ⟨0, by norm_num, by norm_num, h.1, h.2.1, h.2.2.1, h.2.2.2⟩
    · exact Or.inr ⟨1, by norm_num, by norm_num, h.1, h.2.1, h.2.2.1, h.2.2.2⟩
    · exact Or.inr ⟨2, by norm_num, by norm_num, h.1, h.2.1, h.2.2.1, h.2.2.2⟩
    · exact Or.inr ⟨3, by norm_num, by norm_num, h.1, h.2.1, h.2.2.1, h.2.2.2⟩
    · exact Or.inr ⟨4, by norm_num, by norm_num, h.1, h.2.1, h.2.2.1, h.2.2.2⟩
    · exact Or.inr ⟨5, by norm_num, by norm_num, h.1, h.2.1, h.2.2.1, h.2.2.2⟩
  · rintro (rfl | ⟨k, hk0, hk5, h1, h2, h3, rfl⟩)
    · exact Or.inl rfl
    · have hk : k = 0 ∨ k = 1 ∨ k = 2 ∨ k = 3 ∨ k = 4 ∨ k = 5 := by omega
      rcases hk with rfl | rfl | rfl | rfl | rfl | rfl
      · exact Or.inr (Or.inl ⟨h1, h2, h3, rfl⟩)
      · exact Or.inr (Or.inr (Or.inl ⟨h1, h2, h3, rfl⟩))
      · exact Or.inr (Or.inr (Or.inr (Or.inl ⟨h1, h2, h3, rfl⟩)))
      · exact Or.inr (Or.inr (Or.inr (Or.inr (Or.inl ⟨h1, h2, h3, rfl⟩))))
      · exact Or.inr (Or.inr (Or.inr (Or.inr (Or.inr (Or.inl ⟨h1, h2, h3, rfl⟩)))))
      · exact Or.inr (Or.inr (Or.inr (Or.inr (Or.inr (Or.inr ⟨h1, h2, h3, rfl⟩)))))

/-- C1 witness: `fieldIndex = -2`, `fieldValues = [x, y, z]` constrain
only `v0 == z` besides the mandatory `p_type` constraint. -/
theorem c1_witness :
    rfpSelector ("p") (-2) [("x"), ("y"), ("z")] =
      [(("p_type"), ("p")), (("v0"), ("z"))] ∧
    ((("v0"), ("z")) ∈ rfpSelector ("p") (-2) [("x"), ("y"), ("z")]) := by
  refine ⟨by rfl, ?_⟩
  exact (c1_rfp_selector_exact ("p") (-2) [("x"), ("y"), ("z")] (("v0"), ("z"))).mpr
    (Or.inr ⟨0, by norm_num, by norm_num, by norm_num, by norm_num, by decide, by decide⟩)

/-- C4 counterexample: a stored record whose type field is empty survives
`SavePolicy` with an empty model, so the transaction does not delete
every existing record of the collection. -/
theorem c4_counterexample :
    (savePolicy (fun _ => false) (Model.mk [] [])
        [CasbinRule.mk ("") ("x") ("") ("") ("") ("") ("")]).1 = .ok () ∧
    (savePolicy (fun _ => false) (Model.mk [] [])
        [CasbinRule.mk ("") ("x") ("") ("") ("") ("") ("")]).2 =
      [CasbinRule.mk ("") ("x") ("") ("") ("") ("") ("")] := by
  constructor <;> rfl

/-- C4 (amended): inside one atomic transaction, `SavePolicy` deletes
every existing record matched by the adapter's base query — those with
non-empty type — and creates one record per encoded rule of both the p
and g sections; all-or-nothing: if any delete or create fails
mid-transaction, the stored record set is unchanged. -/
theorem c4_save_policy_transactional (fail : Nat → Bool) (m : Model)
    (store : List CasbinRule) :
    ((savePolicy fail m store).1 = .ok () →
      (savePolicy fail m store).2 =
        store.filter (fun r => !(matchBase r)) ++ policyLines m) ∧
    (∀ e, (savePolicy fail m store).1 = .error e →
      (savePolicy fail m store).2 = store) :=
  savePolicy_spec fail m store

/-- C4 witness: a commit on an empty store creates exactly the encoded
lines; an injected failure on the first operation leaves a non-empty
store untouched. -/
theorem c4_witness :
    (savePolicy (fun _ => false)
        (Model.mk [(("p"), [[("alice"), ("data1"), ("read")]])] []) []).2 =
      List.filter (fun r => !(matchBase r)) [] ++
        policyLines (Model.mk [(("p"), [[("alice"), ("data1"), ("read")]])] []) ∧
    (savePolicy (fun _ => true)
        (Model.mk [(("p"), [[("alice"), ("data1"), ("read")]])] [])
        [CasbinRule.mk ("p") ("a") ("") ("") ("") ("") ("")]).2 =
      [CasbinRule.mk ("p") ("a") ("") ("") ("") ("") ("")] :=
  ⟨(c4_save_policy_transactional (fun _ => false)
      (Model.mk [(("p"), [[("alice"), ("data1"), ("read")]])] []) []).1 rfl,
   (c4_save_policy_transactional (fun _ => true)
      (Model.mk [(("p"), [[("alice"), ("data1"), ("read")]])] [])
      [CasbinRule.mk ("p") ("a") ("") ("") ("") ("") ("")]).2
      ("delete failed") rfl⟩

/-- C5 counterexample: with an empty encoded type, a stored record that
agrees with the encoded record on type and on fields 0-4 is nevertheless
not removed, because the base query requires a non-empty type. -/
theorem c5_counterexample :
    ((savePolicyLine ("") []).PType =
        (CasbinRule.mk ("") ("") ("") ("") ("") ("") ("")).PType ∧
      (savePolicyLine ("") []).V0 =
        (CasbinRule.mk ("") ("") ("") ("") ("") ("") ("")).V0 ∧
      (savePolicyLine ("") []).V1 =
        (CasbinRule.mk ("") ("") ("") ("") ("") ("") ("")).V1 ∧
      (savePolicyLine ("") []).V2 =
        (CasbinRule.mk ("") ("") ("") ("") ("") ("") ("")).V2 ∧
      (savePolicyLine ("") []).V3 =
        (CasbinRule.mk ("") ("") ("") ("") ("") ("") ("")).V3 ∧
      (savePolicyLine ("") []).V4 =
        (CasbinRule.mk ("") ("") ("") ("") ("") ("") ("")).V4) ∧
    (removePolicy ("p") ("") []
        [CasbinRule.mk ("") ("") ("") ("") ("") ("") ("")]).2 =
      [CasbinRule.mk ("") ("") ("") ("") ("") ("") ("")] := by
  exact ⟨⟨rfl, rfl, rfl, rfl, rfl, rfl⟩, by rfl⟩

/-- C5 (amended): `RemovePolicy` encodes the rule and deletes, inside one
transaction, every record whose type is non-empty and equal to the
encoded type and whose fields 0 through 4 equal the encoded fields
exactly; field 5 is not constrained, so records differing only in field 5
are also removed; the call succeeds with no error, also on zero
matches. -/
theorem c5_remove_policy_matches_v0_to_v4 (sec ptype : String)
    (rule : List String) (store : List CasbinRule) :
    (removePolicy sec ptype rule store).1 = .ok () ∧
    (removePolicy sec ptype rule store).2 =
      store.filter (fun r => !(removeMatch (savePolicyLine ptype rule) r)) ∧
    (∀ r : CasbinRule,
      removeMatch (savePolicyLine ptype rule) r = true ↔
        (r.PType ≠ ("") ∧ r.PType = (savePolicyLine ptype rule).PType ∧
          r.V0 = (savePolicyLine ptype rule).V0 ∧
          r.V1 = (savePolicyLine ptype rule).V1 ∧
          r.V2 = (savePolicyLine ptype rule).V2 ∧
          r.V3 = (savePolicyLine ptype rule).V3 ∧
          r.V4 = (savePolicyLine ptype rule).V4)) ∧
    (∀ r : CasbinRule, ∀ v5 : String,
      removeMatch (savePolicyLine ptype rule) r =
        removeMatch (savePolicyLine ptype rule)
          (CasbinRule.mk r.PType r.V0 r.V1 r.V2 r.V3 r.V4 v5)) := by
  refine ⟨?_, ?_, ?_, ?_⟩
  · rw [removePolicy_eq]
  · rw [removePolicy_eq]
  · intro r
    simp only [removeMatch, matchBase, Bool.and_eq_true, bne_iff_ne, beq_iff_eq, ne_eq]
    tauto
  · intro r v5
    simp [removeMatch, matchBase]

/-- C5 witness: removing `[alice, data1, write]` also removes a record
that differs only in field 5, and the call reports success. -/
theorem c5_witness :
    (removePolicy ("p") ("p") [("alice"), ("data1"), ("write")]
        [CasbinRule.mk ("p") ("alice") ("data1") ("write") ("") ("") (""),
         CasbinRule.mk ("p") ("alice") ("data1") ("write") ("") ("") ("extra")]).1 =
      .ok () ∧
    (removePolicy ("p") ("p") [("alice"), ("data1"), ("write")]
        [CasbinRule.mk ("p") ("alice") ("data1") ("write") ("") ("") (""),
         CasbinRule.mk ("p") ("alice") ("data1") ("write") ("") ("") ("extra")]).2 =
      [] := by
  have h := c5_remove_policy_matches_v0_to_v4 ("p") ("p")
    [("alice"), ("data1"), ("write")]
    [CasbinRule.mk ("p") ("alice") ("data1") ("write") ("") ("") (""),
     CasbinRule.mk ("p") ("alice") ("data1") ("write") ("") ("") ("extra")]
  refine ⟨h.1, ?_⟩
  rw [h.2.1]
  rfl

/-- C7: saving the same model twice in a row leaves the stored record
set after the second call equal, as a set, to the stored record set after
the first call. -/
theorem c7_save_twice_idempotent_as_set (m : Model) (store : List CasbinRule) :
    ((savePolicy (fun _ => false) m
        ((savePolicy (fun _ => false) m store).2)).2).toFinset =
      ((savePolicy (fun _ => false) m store).2).toFinset := by
  rw [savePolicy_noFail m store]
  rw [savePolicy_noFail m (savePolicyStore m store)]
  ext a
  simp only [savePolicyStore, List.mem_toFinset, List.mem_append, List.mem_filter]
  tauto

/-- C9: every query the adapter issues includes `p_type > ""`, so a
stored record with empty type is never delivered to `LoadPolicy` and
survives `SavePolicy`, `RemovePolicy` and `RemoveFilteredPolicy`
unchanged. -/
theorem c9_empty_ptype_never_loaded_never_deleted (store : List CasbinRule)
    (m : Model) (sec ptype : String) (rule : List String) (fieldIndex : Int)
    (fieldValues : List String) (r : CasbinRule)
    (hr : r ∈ store) (hpt : r.PType = ("")) :
    (∀ q : CasbinRule → Bool,
      (q = matchBase ∨ q = removeMatch (savePolicyLine ptype rule) ∨
        q = rfpMatch ptype fieldIndex fieldValues) →
      ∀ x : CasbinRule, q x = true → (("") : String) < x.PType) ∧
    r ∉ queryDocs store ∧
    r ∈ (savePolicy (fun _ => false) m store).2 ∧
    r ∈ (removePolicy sec ptype rule store).2 ∧
    r ∈ (removeFilteredPolicy sec ptype fieldIndex fieldValues store).2 ∧
    r ∈ (addPolicy sec ptype rule store).2 := by
  have hmb : matchBase r = false := by
    simp [matchBase, hpt]
  refine ⟨?_, ?_, ?_, ?_, ?_, ?_⟩
  · rintro q (rfl | rfl | rfl) x hx
    · exact (matchBase_iff_blank_lt x).mp hx
    · simp only [removeMatch, Bool.and_eq_true] at hx
      exact (matchBase_iff_blank_lt x).mp hx.1.1.1.1.1.1
    · simp only [rfpMatch, Bool.and_eq_true] at hx
      exact (matchBase_iff_blank_lt x).mp hx.1
  · intro hmem
    rw [queryDocs, List.mem_filter] at hmem
    rw [hmem.2] at hmb
    exact absurd hmb (by simp)
  · rw [savePolicy_noFail]
    simp only [savePolicyStore, List.mem_append, List.mem_filter]
    exact Or.inl ⟨hr, by simp [hmb]⟩
  · rw [removePolicy_eq]
    simp only [List.mem_filter]
    refine ⟨hr, ?_⟩
    simp [removeMatch, hmb]
  · rw [removeFilteredPolicy_eq]
    simp only [List.mem_filter]
    refine ⟨hr, ?_⟩
    simp [rfpMatch, hmb]
  · simp only [addPolicy, runTransaction, List.mem_append]
    exact Or.inl hr

/-- C9 witness: a concrete empty-type record is skipped by the load query
and survives a full save, a remove and a filtered remove. -/
theorem c9_witness :
    (CasbinRule.mk ("") ("a") ("") ("") ("") ("") ("")) ∉
        queryDocs [CasbinRule.mk ("") ("a") ("") ("") ("") ("") ("")] ∧
    (CasbinRule.mk ("") ("a") ("") ("") ("") ("") ("")) ∈
      (savePolicy (fun _ => false) (Model.mk [] [])
        [CasbinRule.mk ("") ("a") ("") ("") ("") ("") ("")]).2 ∧
    (CasbinRule.mk ("") ("a") ("") ("") ("") ("") ("")) ∈
      (removePolicy ("p") ("p") [("a")]
        [CasbinRule.mk ("") ("a") ("") ("") ("") ("") ("")]).2 ∧
    (CasbinRule.mk ("") ("a") ("") ("") ("") ("") ("")) ∈
      (removeFilteredPolicy ("p") ("p") 0 [("a")]
        [CasbinRule.mk ("") ("a") ("") ("") ("") ("") ("")]).2 ∧
    (CasbinRule.mk ("") ("a") ("") ("") ("") ("") ("")) ∈
      (addPolicy ("p") ("p") [("a")]
        [CasbinRule.mk ("") ("a") ("") ("") ("") ("") ("")]).2 := by
  have h := c9_empty_ptype_never_loaded_never_deleted
    [CasbinRule.mk ("") ("a") ("") ("") ("") ("") ("")] (Model.mk [] [])
    ("p") ("p") [("a")] 0 [("a")]
    (CasbinRule.mk ("") ("a") ("") ("") ("") ("") (""))
    (by simp) rfl
  exact ⟨h.2.1, h.2.2.1, h.2.2.2.1, h.2.2.2.2.1, h.2.2.2.2.2⟩

/-- Decoding inverts encoding entry-wise on a list of well-formed rules. -/
lemma map_lineTokens_map_savePolicyLine (key : String) (pol : List (List String))
    (h : ∀ r ∈ pol, 1 ≤ r.length ∧ r.length ≤ 6 ∧ ∀ f ∈ r, f ≠ ("")) :
    (pol.map (savePolicyLine key)).map lineTokens = pol := by
  rw [List.map_map]
  have hc : ∀ r ∈ pol, (lineTokens ∘ savePolicyLine key) r = id r := by
    intro r hr
    exact lineTokens_savePolicyLine key r (h r hr).2.1 (h r hr).2.2
  rw [List.map_congr_left hc, List.map_id]

/-- Bucket extraction: among the lines encoded from one section's
association list (all of whose keys have first character `s0`), the lines
decoding to slot `(sec, key)` decode exactly to that key's rules when
`sec = s0`, and to nothing otherwise. -/
lemma flatLines_bucket (L : List (String × List (List String))) (s0 sec key : String)
    (hL : ∀ a ∈ L, (a.1).take 1 = s0)
    (hrules : ∀ a ∈ L, ∀ r ∈ a.2, 1 ≤ r.length ∧ r.length ≤ 6 ∧ ∀ f ∈ r, f ≠ ("")) :
    ((L.flatMap (fun a => a.2.map (savePolicyLine a.1))).filter
        (fun r => decide (sec = lineSec r ∧ key = r.PType))).map lineTokens =
      if sec = s0 then
        (L.filter (fun a => a.1 == key)).flatMap (fun a => a.2)
      else [] := by
  induction L with
  | nil => simp
  | cons a L ih =>
    have ha1 : (a.1).take 1 = s0 := hL a (by simp)
    have harules := hrules a (by simp)
    have ihh := ih (fun b hb => hL b (by simp [hb]))
      (fun b hb => hrules b (by simp [hb]))
    rw [List.flatMap_cons, List.filter_append, List.map_append, ihh]
    have hhead : ((a.2.map (savePolicyLine a.1)).filter
        (fun r => decide (sec = lineSec r ∧ key = r.PType))).map lineTokens =
        if sec = s0 ∧ key = a.1 then a.2 else [] := by
      by_cases hcond : sec = s0 ∧ key = a.1
      · have hall : ∀ r ∈ a.2.map (savePolicyLine a.1),
            (fun r => decide (sec = lineSec r ∧ key = r.PType)) r = true := by
          intro r hr
          obtain ⟨rule, hrule, rfl⟩ := List.mem_map.mp hr
          simp only [lineSec, savePolicyLine, decide_eq_true_eq]
          exact ⟨hcond.1.trans ha1.symm, hcond.2⟩
        rw [List.filter_eq_self.mpr hall, if_pos hcond]
        exact map_lineTokens_map_savePolicyLine a.1 a.2 harules
      · have hnone : (a.2.map (savePolicyLine a.1)).filter
            (fun r => decide (sec = lineSec r ∧ key = r.PType)) = [] := by
          rw [List.filter_eq_nil_iff]
          intro r hr
          obtain ⟨rule, hrule, rfl⟩ := List.mem_map.mp hr
          simp only [lineSec, savePolicyLine, decide_eq_true_eq, not_and]
          intro hs hk
          exact absurd ⟨hs.trans ha1, hk⟩ hcond
        rw [hnone, if_neg hcond]
        rfl
    rw [hhead]
    by_cases hsec : sec = s0
    · by_cases hkey : key = a.1
      · rw [if_pos ⟨hsec, hkey⟩, if_pos hsec, if_pos hsec,
          List.filter_cons_of_pos (by simp [hkey]), List.flatMap_cons]
      · rw [if_neg (fun hc => hkey hc.2), if_pos hsec, if_pos hsec,
          List.filter_cons_of_neg
            (by simp only [beq_iff_eq]; exact fun hc => hkey hc.symm)]
        simp
    · rw [if_neg (fun hc => hsec hc.1), if_neg hsec, if_neg hsec]
      simp

/-- The token lists of the lines built from a model, bucketed by
`(section, key)`, are the model's rules under that section and key. -/
lemma policyLines_bucket (m : Model) (sec key : String)
    (hp : ∀ a ∈ m.p, (a.1).take 1 = ("p"))
    (hg : ∀ a ∈ m.g, (a.1).take 1 = ("g"))
    (hrp : ∀ a ∈ m.p, ∀ r ∈ a.2, 1 ≤ r.length ∧ r.length ≤ 6 ∧ ∀ f ∈ r, f ≠ (""))
    (hrg : ∀ a ∈ m.g, ∀ r ∈ a.2, 1 ≤ r.length ∧ r.length ≤ 6 ∧ ∀ f ∈ r, f ≠ ("")) :
    ((policyLines m).filter
        (fun r => decide (sec = lineSec r ∧ key = r.PType))).map lineTokens =
      modelRules m sec key := by
  rw [policyLines, List.filter_append, List.map_append,
    flatLines_bucket m.p ("p") sec key hp hrp,
    flatLines_bucket m.g ("g") sec key hg hrg,
    modelRules]
  by_cases hsp : sec = ("p")
  · have hsg : ¬ sec = ("g") := by rw [hsp]; decide
    rw [if_pos hsp, if_neg hsg, if_pos hsp]
    simp
  · by_cases hsg : sec = ("g")
    · rw [if_neg hsp, if_pos hsg, if_neg hsp, if_pos hsg]
      simp
    · rw [if_neg hsp, if_neg hsg, if_neg hsp, if_neg hsg]
      simp

/-- Every line built from a model whose keys carry a proper section
character has a non-empty type, so the base query delivers all of them. -/
lemma queryDocs_policyLines (m : Model)
    (hp : ∀ a ∈ m.p, (a.1).take 1 = ("p"))
    (hg : ∀ a ∈ m.g, (a.1).take 1 = ("g")) :
    queryDocs (policyLines m) = policyLines m := by
  rw [queryDocs]
  apply List.filter_eq_self.mpr
  intro r hr
  rw [policyLines, List.mem_append] at hr
  rcases hr with hr | hr
  · obtain ⟨a, ha, hr2⟩ := List.mem_flatMap.mp hr
    obtain ⟨rule, hrule, rfl⟩ := List.mem_map.mp hr2
    have h1 := hp a ha
    simp only [matchBase, savePolicyLine, bne_iff_ne, ne_eq]
    intro h0
    rw [h0] at h1
    exact absurd h1 (by decide)
  · obtain ⟨a, ha, hr2⟩ := List.mem_flatMap.mp hr
    obtain ⟨rule, hrule, rfl⟩ := List.mem_map.mp hr2
    have h1 := hg a ha
    simp only [matchBase, savePolicyLine, bne_iff_ne, ne_eq]
    intro h0
    rw [h0] at h1
    exact absurd h1 (by decide)

/-- C6 counterexample: a rule stored in the p section under the non-empty
policy type `g2` is not reconstructed under `(p, g2)` after a save/load
round trip — the loader files it under the section derived from the
type's first character (`g`), so the claim fails for arbitrary non-empty
policy types. -/
theorem c6_counterexample :
    modelRules (Model.mk [(("g2"), [[("a")]])] []) ("p") ("g2") = [[("a")]] ∧
    ((loadPolicy
        ((queryDocs ((savePolicy (fun _ => false)
          (Model.mk [(("g2"), [[("a")]])] []) []).2)).map Except.ok)
        emptyModelFn).2) ("p") ("g2") = [] := by
  constructor
  · rfl
  · rfl

/-- C6 (amended): starting from an empty collection, for a model whose
policy types are non-empty and stored under the section equal to their
first character, and whose rules have 1-6 non-empty string fields,
`SavePolicy` followed by `LoadPolicy` into an empty model reconstructs,
under every section and policy type, exactly the original rules as an
order-independent multiset — for any delivery order of the stored
documents. -/
theorem c6_save_then_load_reconstructs (m : Model)
    (hp : ∀ a ∈ m.p, (a.1).take 1 = ("p"))
    (hg : ∀ a ∈ m.g, (a.1).take 1 = ("g"))
    (hrp : ∀ a ∈ m.p, ∀ r ∈ a.2, 1 ≤ r.length ∧ r.length ≤ 6 ∧ ∀ f ∈ r, f ≠ (""))
    (hrg : ∀ a ∈ m.g, ∀ r ∈ a.2, 1 ≤ r.length ∧ r.length ≤ 6 ∧ ∀ f ∈ r, f ≠ (""))
    (docs : List CasbinRule)
    (hdocs : docs.Perm (queryDocs ((savePolicy (fun _ => false) m []).2)))
    (sec key : String) :
    (((loadPolicy (docs.map Except.ok) emptyModelFn).2) sec key :
        Multiset (List String)) =
      (modelRules m sec key : Multiset (List String)) := by
  have hstore : (savePolicy (fun _ => false) m []).2 = policyLines m := by
    rw [savePolicy_noFail]
    rfl
  rw [hstore, queryDocs_policyLines m hp hg] at hdocs
  have hload : ((loadPolicy (docs.map Except.ok) emptyModelFn).2) sec key =
      (docs.filter
        (fun r => decide (sec = lineSec r ∧ key = r.PType))).map lineTokens := by
    simp only [loadPolicy, collectRules_map_ok]
    rw [foldl_loadPolicyLine]
    simp [emptyModelFn]
  rw [hload]
  have hperm :=
    (hdocs.filter (fun r => decide (sec = lineSec r ∧ key = r.PType))).map lineTokens
  calc ((docs.filter
          (fun r => decide (sec = lineSec r ∧ key = r.PType))).map lineTokens :
        Multiset (List String))
      = (((policyLines m).filter
          (fun r => decide (sec = lineSec r ∧ key = r.PType))).map lineTokens :
        Multiset (List String)) := Multiset.coe_eq_coe.mpr hperm
    _ = (modelRules m sec key : Multiset (List String)) := by
        rw [policyLines_bucket m sec key hp hg hrp hrg]

/-- C6 witness: the two-rule model of the claim is reconstructed exactly
under `(p, p)`. -/
theorem c6_witness :
    (((loadPolicy ((queryDocs ((savePolicy (fun _ => false)
        (Model.mk [(("p"), [[("a"), ("b"), ("read")], [("c"), ("d"), ("write")]])] [])
        []).2)).map Except.ok) emptyModelFn).2) ("p") ("p") :
        Multiset (List String)) =
      (modelRules
          (Model.mk [(("p"), [[("a"), ("b"), ("read")], [("c"), ("d"), ("write")]])] [])
          ("p") ("p") : Multiset (List String)) :=
  c6_save_then_load_reconstructs
    (Model.mk [(("p"), [[("a"), ("b"), ("read")], [("c"), ("d"), ("write")]])] [])
    (by decide) (by decide) (by decide) (by decide)
    _ (List.Perm.refl _) ("p") ("p")

end CasbinFirestore
